import Mathlib

set_option maxRecDepth 100000

/-!
Verification of the Ledger Transaction Lifecycle & Typed Value Codec subsystem
of the apollo-back repository, embedded shallowly from
`src/src/services/stellarWalletService.ts`.

JavaScript runtime values are modelled by the inductive `JsVal`; JS numbers are
IEEE-754 doubles, modelled here by their exact integer value after rounding to
53 significant bits (`jsRound`), with `nan` as a separate constructor.  Byte
buffers (`Buffer`) are modelled by their decoded UTF-8 string, and numeric
strings by decimal digit strings.
-/

/-- A JavaScript runtime value, as far as the decoder paths of
`stellarWalletService.ts` observe it.  `num n` is an integral double with
exact value `n`; `bigint n` a non-negative BigInt; `obj` an object as an
ordered association list of own properties. -/
inductive JsVal where
  | jsUndefined : JsVal
  | jsNull : JsVal
  | bool : Bool → JsVal
  | num : Nat → JsVal
  | nan : JsVal
  | str : String → JsVal
  | bigint : Nat → JsVal
  | arr : List JsVal → JsVal
  | obj : List (String × JsVal) → JsVal
deriving Repr

/-- JS truthiness: `undefined`, `null`, `false`, `0`, `NaN`, `0n` and the empty
string are falsy; every object and array is truthy. -/
def JsVal.truthy : JsVal → Bool
  | .jsUndefined => false
  | .jsNull => false
  | .bool b => b
  | .num n => n != 0
  | .nan => false
  | .str s => !s.isEmpty
  | .bigint n => n != 0
  | .arr _ => true
  | .obj _ => true

/-- A value is nullish (`undefined` or `null`), the condition tested by the
JS `??` and `?.` operators. -/
def JsVal.nullish : JsVal → Bool
  | .jsUndefined => true
  | .jsNull => true
  | _ => false

/-- The JS test `typeof v === 'object'`: objects, arrays and `null`. -/
def JsVal.isObjectLike : JsVal → Bool
  | .obj _ => true
  | .arr _ => true
  | .jsNull => true
  | _ => false

/-- The JS test `typeof v === 'string'`. -/
def JsVal.isStr : JsVal → Bool
  | .str _ => true
  | _ => false

/-- Property read `v.k` (with the optional-chaining convention that a read
from a nullish or non-object base yields `undefined` rather than throwing;
the source only reads properties behind `?.` or after truthiness tests). -/
def JsVal.get (v : JsVal) (k : String) : JsVal :=
  match v with
  | .obj fs => ((fs.find? (fun p => p.1 == k)).map Prod.snd).getD .jsUndefined
  | _ => .jsUndefined

/-- The JS nullish-coalescing operator `a ?? b`. -/
def jsNvl (a b : JsVal) : JsVal := if a.nullish then b else a

/-- The JS test `'k' in v`: whether an object has an own property named `k`. -/
def JsVal.hasProp (v : JsVal) (k : String) : Bool :=
  match v with
  | .obj fs => fs.any (fun p => p.1 == k)
  | _ => false

/-- Property assignment `o[k] = v` on a plain object: overwrite an existing
key in place, otherwise append (JS string-keyed insertion order). -/
def jsSetProp (fs : List (String × JsVal)) (k : String) (v : JsVal) :
    List (String × JsVal) :=
  if fs.any (fun p => p.1 == k) then
    fs.map (fun p => if p.1 == k then (k, v) else p)
  else fs ++ [(k, v)]

/-- Bit length helper, structurally recursive on a fuel argument so that it
evaluates by kernel reduction; `bitLenAux fuel n` is the bit length of `n`
provided `fuel` bounds the recursion depth. -/
def bitLenAux : Nat → Nat → Nat
  | 0, _ => 0
  | fuel + 1, n => if n = 0 then 0 else bitLenAux fuel (n / 2) + 1

/-- Number of binary digits of `n` (`0` for `n = 0`). -/
def bitLen (n : Nat) : Nat := bitLenAux (n + 1) n

/-- The exact integer value of the IEEE-754 double nearest to `n`
(round-to-nearest, ties-to-even, 53-bit significand, unbounded exponent):
the value produced by the JS conversion `Number(bigint)` before the overflow
check.  Exact for `n < 2^53`. -/
def jsRound (n : Nat) : Nat :=
  if n < 2 ^ 53 then n
  else
    let k := bitLen n - 53
    let q := n / 2 ^ k
    let r := n % 2 ^ k
    let half := 2 ^ (k - 1)
    let q' := if half < r ∨ (r = half ∧ q % 2 = 1) then q + 1 else q
    q' * 2 ^ k

/-- Value of a string of decimal digits; `none` when a non-digit occurs
(the empty string parses to `0`, as both `Number('')` and `BigInt('')` do). -/
def decDigitsVal? (s : String) : Option Nat :=
  s.toList.foldl
    (fun acc c =>
      match acc with
      | none => none
      | some a => if c.isDigit then some (a * 10 + (c.toNat - 48)) else none)
    (some 0)

/-- Strip leading and trailing whitespace, as the JS string-to-number
conversions do before parsing. -/
def jsTrim (s : String) : String :=
  String.mk (((s.toList.dropWhile Char.isWhitespace).reverse.dropWhile
    Char.isWhitespace).reverse)

/-- The conversion `BigInt(s)` on a string: its value, or `none` when the conversion throws. -/
def jsBigIntOfString (s : String) : Option Nat := decDigitsVal? (jsTrim s)

/-- The conversion `Number(s)` on a string: an integral double, or `NaN`. -/
def jsNumberOfString (s : String) : JsVal :=
  match decDigitsVal? (jsTrim s) with
  | some v => .num (jsRound v)
  | none => .nan

/-- The conversion `BigInt(v)` on an arbitrary value: `none` models a thrown `TypeError`
(`undefined`, `null`, objects and non-numeric strings). -/
def jsBigIntOf : JsVal → Option Nat
  | .str s => jsBigIntOfString s
  | .num n => some n
  | .bool b => some (if b then 1 else 0)
  | .bigint n => some n
  | _ => none

/-- The conversion `Number(v)` on an arbitrary value (objects and arrays are modelled as
converting to `NaN`; none of the decoder paths reach them). -/
def jsNumberOf : JsVal → JsVal
  | .str s => jsNumberOfString s
  | .num n => .num n
  | .nan => .nan
  | .bool b => .num (if b then 1 else 0)
  | .jsNull => .num 0
  | .bigint n => .num (jsRound n)
  | _ => .nan

/-- Keep only decimal digit characters: the effect of
`.replace(/[^0-9]/g, '')`. -/
def onlyDigits (s : String) : String := String.mk (s.toList.filter Char.isDigit)

/-- The `undefined` test used when JSON-rendering object fields. -/
def JsVal.isUndefined : JsVal → Bool
  | .jsUndefined => true
  | _ => false

/-- The rendering `JSON.stringify(v)`: `none` models the `TypeError` thrown on BigInt
values.  String escaping is elided (only the digit characters of the
rendering are ever consumed by the source, via `onlyDigits`).  `undefined`
occurring inside an array renders as `null`; `undefined`-valued object
fields are omitted.  Structurally recursive on a fuel bound. -/
def jsonRender? : Nat → JsVal → Option String
  | 0, _ => none
  | fuel + 1, v =>
    match v with
    | .jsUndefined => some "null"
    | .jsNull => some "null"
    | .bool b => some (if b then "true" else "false")
    | .num n => some (toString n)
    | .nan => some "null"
    | .str s => some ("\"" ++ s ++ "\"")
    | .bigint _ => none
    | .arr xs =>
      match xs.mapM (fun x => jsonRender? fuel x) with
      | some rs => some ("[" ++ String.intercalate "," rs ++ "]")
      | none => none
    | .obj fs =>
      match (fs.filter (fun p => !p.2.isUndefined)).mapM
          (fun p => (jsonRender? fuel p.2).map
            (fun s => "\"" ++ p.1 ++ "\":" ++ s)) with
      | some rs => some ("\x7b" ++ String.intercalate "," rs ++ "\x7d")
      | none => none

/-- JS string coercion `String(v)`, used by property assignment `obj[k] = v`
for the decoded map keys. -/
def jsToStr : Nat → JsVal → String
  | 0, _ => ""
  | fuel + 1, v =>
    match v with
    | .jsUndefined => "undefined"
    | .jsNull => "null"
    | .bool b => if b then "true" else "false"
    | .num n => toString n
    | .nan => "NaN"
    | .str s => s
    | .bigint n => toString n
    | .arr xs => String.intercalate "," (xs.map (fun x => jsToStr fuel x))
    | .obj _ => "[object Object]"

/-- The `scvU64` case of `customScValToNative`
(src/src/services/stellarWalletService.ts lines 503-526): try the plain
numeric-string shape, the nested single-value wrapper, the low-component
attribute pair, then the digit-extraction fallback over the JSON rendering,
and finally return `0`; the surrounding try/catch makes the case total. -/
def decodeScvU64 (fuel : Nat) (scVal : JsVal) : JsVal :=
  let v := jsNvl (scVal.get "_value") scVal
  if v.isStr then jsNumberOf v
  else if (v.get "_value").truthy && (v.get "_value").isStr then
    jsNumberOf (v.get "_value")
  else if (v.get "_value").truthy && ((v.get "_value").get "_value").truthy then
    jsNumberOf ((v.get "_value").get "_value")
  else if (v.get "_attributes").truthy && ((v.get "_attributes").get "lo").truthy
      && (((v.get "_attributes").get "lo").get "_value").truthy then
    jsNumberOf (((v.get "_attributes").get "lo").get "_value")
  else
    match jsonRender? fuel v with
    | some text =>
      match jsNumberOfString (onlyDigits text) with
      | .nan => .num 0
      | x => x
    | none => .num 0

/-- The digit-extraction fallback of the `scvU128` case
(lines 546-552): `JSON.stringify`, strip non-digits, `Number` or `0`. -/
def decodeScvU128Fallback (fuel : Nat) (scVal : JsVal) : JsVal :=
  match jsonRender? fuel scVal with
  | some text =>
    let digits := onlyDigits text
    if digits.isEmpty then .num 0 else jsNumberOfString digits
  | none => .num 0

/-- The `scvU128` case of `customScValToNative` (lines 528-552): read the
high/low 64-bit components from the attribute shapes, combine them as
`(hi << 64) + lo`, convert with `Number(combined)` and return that number
whenever it is finite; any parse failure or non-finite result falls back to
digit extraction.  Note the guard is `Number.isFinite`, not
`Number.isSafeInteger`: the case never produces a decimal string. -/
def decodeScvU128 (fuel : Nat) (scVal : JsVal) : JsVal :=
  let attrs :=
    jsNvl (if (scVal.get "_value").nullish then .jsUndefined
           else (scVal.get "_value").get "_attributes")
      (jsNvl (scVal.get "_attributes") (.obj []))
  let hiRaw :=
    jsNvl (if (attrs.get "hi").nullish then .jsUndefined else (attrs.get "hi").get "_value")
      (jsNvl (attrs.get "hi") (.str "0"))
  let loRaw :=
    jsNvl (if (attrs.get "lo").nullish then .jsUndefined else (attrs.get "lo").get "_value")
      (jsNvl (attrs.get "lo") (.str "0"))
  let bigArg := fun (raw : JsVal) =>
    if raw.truthy && raw.isStr then raw else jsNvl (raw.get "_value") (.str "0")
  match jsBigIntOf (bigArg hiRaw), jsBigIntOf (bigArg loRaw) with
  | some hi, some lo =>
    let combined := hi * 2 ^ 64 + lo
    let n := jsRound combined
    if n < 2 ^ 1024 then .num n else decodeScvU128Fallback fuel scVal
  | _, _ => decodeScvU128Fallback fuel scVal

/-- Function `customScValToNative` (lines 474-576): recursive descent over the raw
ScVal object shape, dispatching on `scVal._switch?.name`.  The external
`StellarSdk.scValToNative` is the parameter `sdk` (its failures are the
exceptions the address case catches).  `Except.error` models a thrown
exception; the fuel argument bounds the recursion depth and exceeds the
depth of every value considered in this development. -/
def customScValToNative (sdk : JsVal → Except String JsVal) (fuel : Nat)
    (scVal : JsVal) : Except String JsVal :=
  match fuel with
  | 0 => Except.error "recursion limit exceeded"
  | fuel + 1 =>
    if !(scVal.truthy && scVal.isObjectLike) then Except.ok scVal
    else
      let dflt : Except String JsVal :=
        match sdk scVal with
        | .ok v => .ok v
        | .error _ =>
          .ok (if (scVal.get "_value").truthy then scVal.get "_value" else scVal)
      match (scVal.get "_switch").get "name" with
      | .str swName =>
        if swName = "scvVec" then
          match scVal.get "_value" with
          | .arr xs =>
            match xs.mapM (fun x => customScValToNative sdk fuel x) with
            | .ok ys => .ok (.arr ys)
            | .error e => .error e
          | .jsUndefined => .ok (.arr [])
          | .jsNull => .ok (.arr [])
          | _ => .error "TypeError: scVal._value.map is not a function"
        else if swName = "scvMap" then
          match scVal.get "_value" with
          | .arr xs =>
            match xs.foldlM
                (fun (acc : List (String × JsVal)) (item : JsVal) =>
                  let k := (item.get "_attributes").get "key"
                  let v := (item.get "_attributes").get "val"
                  if k.truthy && v.truthy then
                    match customScValToNative sdk fuel k,
                        customScValToNative sdk fuel v with
                    | .ok dk, .ok dv =>
                      Except.ok (jsSetProp acc (jsToStr fuel dk) dv)
                    | .error e, _ => .error e
                    | _, .error e => .error e
                  else .ok acc) [] with
            | .ok fs => .ok (.obj fs)
            | .error e => .error e
          | _ => .ok (.obj [])
        else if swName = "scvString" || swName = "scvSymbol" then
          if (scVal.get "_value").truthy then
            match (scVal.get "_value").get "data" with
            | .str s => .ok (.str s)
            | _ => .error "TypeError: invalid buffer source"
          else .ok (.str "")
        else if swName = "scvU64" then .ok (decodeScvU64 fuel scVal)
        else if swName = "scvU128" then .ok (decodeScvU128 fuel scVal)
        else if swName = "scvU32" then
          .ok (if (scVal.get "_value").truthy then scVal.get "_value" else .num 0)
        else if swName = "scvBool" then
          .ok (if (scVal.get "_value").truthy then scVal.get "_value" else .bool false)
        else if swName = "scvAddress" then
          match sdk scVal with
          | .ok v => .ok v
          | .error _ =>
            .ok (if (scVal.get "_value").truthy then .str "ADDRESS_CONVERSION_ERROR"
                 else .str "")
        else dflt
      | _ => dflt
termination_by structural fuel

/-- Function `convertScValToNativeWithBigIntHandling` (lines 458-469): try the SDK
conversion first, fall back to the custom decoder only when the failure
message mentions BigInt, and rethrow otherwise. -/
def convertScValToNativeWithBigIntHandling (sdk : JsVal → Except String JsVal)
    (fuel : Nat) (scVal : JsVal) : Except String JsVal :=
  match sdk scVal with
  | .ok v => .ok v
  | .error msg =>
    if 2 ≤ (msg.splitOn "BigInt").length then customScValToNative sdk fuel scVal
    else .error msg

/-- Function `serializeBigIntForJson` (lines 394-422): BigInts become
`Number(x.toString())` — a lossily-rounded double, not a string — and
containers are mapped recursively; all other values pass through. -/
def serializeBigIntForJson : Nat → JsVal → JsVal
  | 0, v => v
  | fuel + 1, v =>
    match v with
    | .bigint n => .num (jsRound n)
    | .arr xs => .arr (xs.map (fun x => serializeBigIntForJson fuel x))
    | .obj fs => .obj (fs.map (fun p => (p.1, serializeBigIntForJson fuel p.2)))
    | x => x

/-! ## Submitter / Confirmation Poller

`submitSignedTransaction` (src/src/services/stellarWalletService.ts lines
83-195), embedded as a function of the parsed transaction and an oracle
giving the outcome of each network call, returning the overall outcome
(`Except.error` = thrown) together with the ordered trace of network
effects. -/

/-- The outcome `sorobanServer.getTransaction` has on one status query:
either a response with a `status` string and optional `resultXdr`, or a
thrown transport/application error. -/
inductive GetTxOutcome where
  | result : String → Option String → GetTxOutcome
  | threw : String → GetTxOutcome

/-- The response of `sorobanServer.sendTransaction`: a `status` string, the
transaction hash, and the optional error detail (already JSON-rendered). -/
structure SendResult where
  status : String
  hash : String
  errorResult : Option String

/-- The result type `WalletTransactionResult` as far as this subsystem populates it. -/
structure WalletTransactionResult where
  success : Bool
  hash : String
deriving Repr, DecidableEq

/-- One network-visible effect of a submission call. -/
inductive NetEvent where
  | sorobanSend : NetEvent
  | horizonSubmit : NetEvent
  | getTxCall : NetEvent
  | sleep : Nat → NetEvent
deriving Repr, DecidableEq

/-- Everything the network returns to one `submitSignedTransaction` call:
the send response (or a thrown transport error), the Horizon submission
outcome, and the status-query outcome for each polling attempt. -/
structure SubmitOracle where
  send : Except String SendResult
  horizon : Except String String
  getTx : Nat → GetTxOutcome

/-- The polling attempt budget (`maxAttempts`, line 132). -/
def maxAttempts : Nat := 30

/-- The network effects of one loop iteration: the 2000 ms sleep (line 135)
followed by the status query (line 138). -/
def pollStepEvents : List NetEvent := [.sleep 2000, .getTxCall]

/-- The timeout error thrown after the attempt budget is exhausted
(line 162). -/
def confirmationTimeoutMsg : String :=
  "Transaction timeout - unable to confirm within expected time"

/-- The confirmation poll loop (lines 131-162), recursing on the remaining
attempts (`remaining = maxAttempts - attempts`).  Each iteration sleeps 2
seconds, queries the status, returns on SUCCESS, and otherwise continues.
In the FAILED branch the source constructs and throws an error, but that
`throw` sits inside the same `try` whose `catch` (lines 156-159) catches
every error, logs it and increments `attempts` — so FAILED, any other
status, and a thrown query all continue the loop identically. -/
def pollLoop (getTx : Nat → GetTxOutcome) (hash : String) :
    Nat → Nat → Except String WalletTransactionResult × List NetEvent
  | 0, _ => (Except.error confirmationTimeoutMsg, [])
  | remaining + 1, attempt =>
    match getTx attempt with
    | .result status _ =>
      if status = "SUCCESS" then
        (Except.ok { success := true, hash := hash }, pollStepEvents)
      else if status = "FAILED" then
        -- the error thrown here is caught by the catch at lines 156-159
        let next := pollLoop getTx hash remaining (attempt + 1)
        (next.1, pollStepEvents ++ next.2)
      else
        let next := pollLoop getTx hash remaining (attempt + 1)
        (next.1, pollStepEvents ++ next.2)
    | .threw _ =>
      let next := pollLoop getTx hash remaining (attempt + 1)
      (next.1, pollStepEvents ++ next.2)

/-- Whether the parsed transaction (its list of operation type strings)
contains an invoke-host-function operation (lines 99-101). -/
def hasSorobanOps (ops : List String) : Bool :=
  ops.any (fun t => t == "invokeHostFunction")

/-- Function `submitSignedTransaction` (lines 83-195): classify the envelope by its
operations; Soroban envelopes go to the RPC `sendTransaction` and, when
PENDING, are polled; everything else goes to Horizon `submitTransaction`
synchronously.  The outer catch (lines 184-194) re-wraps every thrown error
as `Transaction submission failed: ...`. -/
def submitSignedTransaction (ops : List String) (net : SubmitOracle) :
    Except String WalletTransactionResult × List NetEvent :=
  let inner : Except String WalletTransactionResult × List NetEvent :=
    if hasSorobanOps ops then
      match net.send with
      | .error m => (.error m, [.sorobanSend])
      | .ok res =>
        if res.status = "PENDING" then
          let next := pollLoop net.getTx res.hash maxAttempts 0
          (next.1, .sorobanSend :: next.2)
        else
          (.error ("Soroban transaction failed with status: " ++ res.status
              ++ ", details: " ++ res.errorResult.getD "No error details available"),
            [.sorobanSend])
    else
      match net.horizon with
      | .ok hash => (.ok { success := true, hash := hash }, [.horizonSubmit])
      | .error m => (.error m, [.horizonSubmit])
  match inner with
  | (.ok r, evs) => (.ok r, evs)
  | (.error m, evs) => (.error ("Transaction submission failed: " ++ m), evs)

/-! ## Read-only contract calls (`simulateContractCall`) and `getActiveQuests` -/

/-- ScVal object built by the SDK for `nativeToScVal(n, type u64)`, in the
attribute shape the decoder reads back. -/
def nativeToScValU64 (n : Nat) : JsVal :=
  .obj [("_switch", .obj [("name", .str "scvU64")]),
        ("_value", .obj [("_value", .str (toString n))])]

/-- ScVal object built by `new Address(a).toScVal()`. -/
def addressToScVal (a : String) : JsVal :=
  .obj [("_switch", .obj [("name", .str "scvAddress")]),
        ("_value", .str a)]

/-- ScVal object built by `nativeToScVal(s, type symbol)`. -/
def nativeToScValSymbol (s : String) : JsVal :=
  .obj [("_switch", .obj [("name", .str "scvSymbol")]),
        ("_value", .obj [("data", .str s)])]

/-- Modelled from the spec: `nativeToScVal` with no explicit type option is
provided by the external ledger SDK and is not code of this repository; per
the design notes it infers the encoding from the JavaScript runtime type of
its argument.  The inferred tag is recorded in the resulting ScVal object. -/
def nativeToScValInferred : JsVal → JsVal
  | .num n => .obj [("_switch", .obj [("name", .str "scvI32")]),
                    ("_value", .num n)]
  | .bool b => .obj [("_switch", .obj [("name", .str "scvBool")]),
                     ("_value", .bool b)]
  | .bigint n => .obj [("_switch", .obj [("name", .str "scvI128")]),
                       ("_value", .bigint n)]
  | v => .obj [("_switch", .obj [("name", .str "scvVoid")]), ("_value", v)]

/-- The per-argument conversion of `simulateContractCall` (lines 655-665):
values that already carry a `_switch` tag pass through unchanged; otherwise
the encoding is chosen from the runtime shape — `typeof arg === 'string'`
selects a symbol encoding, and anything else defers to the SDK's inference. -/
def convertArg (arg : JsVal) : JsVal :=
  if arg.truthy && arg.isObjectLike && arg.hasProp "_switch" then arg
  else
    match arg with
    | .str s => nativeToScValSymbol s
    | v => nativeToScValInferred v

/-- The explicitly tagged argument list built at the `register` call site of
`buildQuestRegistrationTransaction` (lines 215-221); `isUserRegistered`
(lines 333-336) and `markUserEligible` build the same pair. -/
def registerCallArgs (questId : Nat) (userAddress : String) : List JsVal :=
  [nativeToScValU64 questId, addressToScVal userAddress]

/-- Outcome of `server.loadAccount`: success, the `NotFoundError` the source
tests for by name, or another thrown error. -/
inductive LoadAccountOutcome where
  | ok : LoadAccountOutcome
  | notFound : LoadAccountOutcome
  | threw : String → LoadAccountOutcome

/-- Response of `sorobanServer.simulateTransaction`, as far as the source
inspects it: the error predicate and message, the success predicate, and the
optional return value. -/
structure SimResponse where
  isError : Bool
  errorMsg : String
  isSuccess : Bool
  retval : Option JsVal

/-- Everything the network returns to one `simulateContractCall`. -/
structure SimOracle where
  loadAccount : LoadAccountOutcome
  simulate : Except String SimResponse

/-- The service configuration state read by `simulateContractCall`. -/
structure SvcConfig where
  hasAdminKeypair : Bool
  adminPublicKey : String
  contractAddress : String
  isTestnet : Bool

/-- One network-visible effect of a read-only contract call; the simulate
event records the converted argument vector handed to `contract.call`. -/
inductive SimEvent where
  | loadAccountCall : SimEvent
  | simulateCall : List JsVal → SimEvent

/-- The `NotFoundError` remediation message built at lines 643-649. -/
def adminNotFoundMsg (cfg : SvcConfig) : String :=
  "Admin account " ++ cfg.adminPublicKey ++ " not found on "
    ++ (if cfg.isTestnet then "testnet" else "mainnet") ++ ". "
    ++ (if cfg.isTestnet then
          "Please fund it using the Stellar Laboratory: https://laboratory.stellar.org/#account-creator?network=test"
        else "Please ensure the account is created and funded on mainnet")

/-- Function `simulateContractCall` (lines 621-720): validate configuration, load the
admin account, convert the arguments, simulate once, and classify the
response; every failure is thrown (the outer catch logs and rethrows the
same error). -/
def simulateContractCall (cfg : SvcConfig) (net : SimOracle)
    (functionName : String) (args : List JsVal) :
    Except String JsVal × List SimEvent :=
  if !cfg.hasAdminKeypair then
    (.error "ADMIN_SECRET not configured in environment variables. Please set a valid Stellar secret key (starts with S)", [])
  else if cfg.contractAddress = "" then
    (.error "CONTRACT_ID not configured in environment variables", [])
  else
    match net.loadAccount with
    | .notFound => (.error (adminNotFoundMsg cfg), [.loadAccountCall])
    | .threw m => (.error m, [.loadAccountCall])
    | .ok =>
      let scValArgs := args.map convertArg
      match net.simulate with
      | .error m => (.error m, [.loadAccountCall, .simulateCall scValArgs])
      | .ok resp =>
        if resp.isError then
          (.error ("Contract simulation failed: " ++ resp.errorMsg),
            [.loadAccountCall, .simulateCall scValArgs])
        else if !resp.isSuccess then
          (.error ("Contract simulation was not successful for function: " ++ functionName),
            [.loadAccountCall, .simulateCall scValArgs])
        else
          match resp.retval with
          | none =>
            (.error ("Contract call returned no result for function: " ++ functionName),
              [.loadAccountCall, .simulateCall scValArgs])
          | some rv => (.ok rv, [.loadAccountCall, .simulateCall scValArgs])

/-- Function `getActiveQuests` (lines 427-453): call the contract read-only, decode
with BigInt handling, serialize, and keep the result only when it is an
array; the enclosing catch turns every thrown error into the empty list, so
the method itself never throws (`Except.ok` always). -/
def getActiveQuests (cfg : SvcConfig) (net : SimOracle)
    (sdk : JsVal → Except String JsVal) (fuel : Nat) :
    Except String (List JsVal) :=
  let body : Except String (List JsVal) := do
    let retval ← (simulateContractCall cfg net "get_active_quests" []).1
    let quests ← convertScValToNativeWithBigIntHandling sdk fuel retval
    let serializable := serializeBigIntForJson fuel quests
    pure (match serializable with
      | .arr xs => xs
      | _ => [])
  match body with
  | .ok l => .ok l
  | .error _ => .ok []

/-! ## Assembler (spec §4.3) -/

/-- Modelled from the spec: the Resource Footprint of §3 —
`StellarSdk.rpc.assembleTransaction` and the simulation response type are
code of the external ledger SDK, not of this repository; only their caller
(lines 252-266) is under src/. -/
structure ResourceFootprint where
  cpuInstructions : Nat
  memoryBytes : Nat
  readBytes : Nat
  writeBytes : Nat
  minResourceFee : Nat
deriving Repr, DecidableEq

/-- Modelled from the spec: an unsigned Operation Envelope (§3) as the
Assembler observes it: source, sequence, fee, expiry and the attached
resource metadata. -/
structure OperationEnvelope where
  source : String
  sequence : Nat
  fee : Nat
  timeoutSeconds : Nat
  resourceMeta : Option ResourceFootprint
deriving Repr, DecidableEq

/-- Modelled from the spec: the Assembler (§4.3) — `assembleTransaction` is
implemented by the external ledger SDK; per the spec it "sets the envelope's
fee to at least the minimum resource fee reported, attaches the resource
metadata required for execution, and returns a submission-ready unsigned
envelope", purely and deterministically. -/
def assembleTransaction (env : OperationEnvelope) (f : ResourceFootprint) :
    OperationEnvelope :=
  { env with fee := max env.fee f.minResourceFee, resourceMeta := some f }

/-! ## Concrete fixtures used by the theorems below -/

/-- A stand-in for the external `StellarSdk.scValToNative` that always
succeeds, returning its input; the integer decoder cases never consult it. -/
def sdkStubOk : JsVal → Except String JsVal := fun v => .ok v

/-- A stand-in for the external `StellarSdk.scValToNative` that always
throws, as it does on a malformed address. -/
def sdkAddrFail : JsVal → Except String JsVal :=
  fun _ => .error "Error: invalid address"

/-- The raw ScVal object shape of a 128-bit unsigned integer with high and
low components given as numeric strings, as produced by the XDR layer and
consumed by the `scvU128` case. -/
def u128ScVal (hi lo : String) : JsVal :=
  .obj [("_switch", .obj [("name", .str "scvU128")]),
        ("_value", .obj [("_attributes",
          .obj [("hi", .obj [("_value", .str hi)]),
                ("lo", .obj [("_value", .str lo)])])])]

/-- Raw ScVal shape of a 32-bit unsigned integer. -/
def scvU32Val (n : Nat) : JsVal :=
  .obj [("_switch", .obj [("name", .str "scvU32")]), ("_value", .num n)]

/-- Raw ScVal shape of one map entry (`_attributes.key` / `_attributes.val`). -/
def scvMapEntry (k v : JsVal) : JsVal :=
  .obj [("_attributes", .obj [("key", k), ("val", v)])]

/-- Raw ScVal shape of a map value. -/
def scvMapVal (entries : List JsVal) : JsVal :=
  .obj [("_switch", .obj [("name", .str "scvMap")]), ("_value", .arr entries)]

/-- Raw ScVal shape of an address value carrying payload `v`. -/
def scvAddressVal (v : JsVal) : JsVal :=
  .obj [("_switch", .obj [("name", .str "scvAddress")]), ("_value", v)]

/-- Operation type list of a contract-invocation (Soroban) transaction. -/
def txSorobanOps : List String := ["invokeHostFunction"]

/-- Operation type list of a simple payment transaction. -/
def txPaymentOps : List String := ["payment"]

/-- A PENDING `sendTransaction` response with the given hash. -/
def sendPending (h : String) : SendResult :=
  { status := "PENDING", hash := h, errorResult := none }

/-- Oracle: submission accepted as PENDING, every status query FAILED. -/
def oracleAllFailed : SubmitOracle :=
  { send := .ok (sendPending "txhash"), horizon := .ok "txhash",
    getTx := fun _ => .result "FAILED" (some "resultXdrBase64") }

/-- Oracle: submission accepted as PENDING, every status query throws a
non-transient application error. -/
def oracleAllThrew : SubmitOracle :=
  { send := .ok (sendPending "txhash"), horizon := .ok "txhash",
    getTx := fun _ => .threw "Bad union switch: 1" }

/-- Oracle: submission accepted as PENDING, every status query PENDING. -/
def oracleAllPending : SubmitOracle :=
  { send := .ok (sendPending "txhash"), horizon := .ok "txhash",
    getTx := fun _ => .result "PENDING" none }

/-- Submission events (`sendTransaction` / Horizon `submitTransaction`). -/
def isSubmitEvent : NetEvent → Bool
  | .sorobanSend => true
  | .horizonSubmit => true
  | _ => false

/-- Status-query events (`getTransaction`). -/
def isGetTxEvent : NetEvent → Bool
  | .getTxCall => true
  | _ => false

/-- Simulation events of a read-only contract call. -/
def isSimulateEvent : SimEvent → Bool
  | .simulateCall _ => true
  | _ => false

/-- Account-load events of a read-only contract call. -/
def isLoadAccountEvent : SimEvent → Bool
  | .loadAccountCall => true
  | _ => false

/-- The full network trace of `k` poll iterations that never confirm. -/
def pollTrace : Nat → List NetEvent
  | 0 => []
  | k + 1 => pollStepEvents ++ pollTrace k

/-- A fully configured service (admin keypair and contract id present). -/
def cfgOk : SvcConfig :=
  { hasAdminKeypair := true, adminPublicKey := "GADMIN",
    contractAddress := "CCONTRACT", isTestnet := true }

/-- A service missing its admin keypair. -/
def cfgNoAdmin : SvcConfig :=
  { hasAdminKeypair := false, adminPublicKey := "",
    contractAddress := "CCONTRACT", isTestnet := true }

/-- Network oracle: account present, simulation succeeds with an empty
vector return value. -/
def netSimOk : SimOracle :=
  { loadAccount := .ok,
    simulate := .ok { isError := false, errorMsg := "", isSuccess := true,
                      retval := some (.obj [("_switch", .obj [("name", .str "scvVec")]),
                                            ("_value", .arr [])]) } }

/-- Network oracle: admin account absent from the ledger. -/
def netSimDown : SimOracle :=
  { loadAccount := .notFound, simulate := .error "ECONNREFUSED" }

/-! ## Helper lemmas on the confirmation poll loop -/

/-- If no status query reports SUCCESS, the poll loop consumes every
remaining attempt — sleeping 2 seconds before each query — and ends with
the timeout error, regardless of whether the non-SUCCESS outcomes are
FAILED statuses, other statuses, or thrown query errors. -/
theorem pollLoop_no_success_timeout (getTx : Nat → GetTxOutcome) (hash : String)
    (h : ∀ i, match getTx i with
      | .result st _ => st ≠ "SUCCESS"
      | .threw _ => True) :
    ∀ r a, pollLoop getTx hash r a = (.error confirmationTimeoutMsg, pollTrace r) := by
  intro r
  induction r with
  | zero => intro a; rfl
  | succ n ih =>
    intro a
    have ha := h a
    cases hga : getTx a with
    | result st rx =>
      rw [hga] at ha
      by_cases hs : st = "SUCCESS"
      · exact absurd hs ha
      · by_cases hf : st = "FAILED" <;>
          simp [pollLoop, hga, hs, hf, ih, pollTrace]
    | threw m => simp [pollLoop, hga, ih, pollTrace]

/-- Every event the poll loop emits is a sleep or a status query; in
particular it never submits. -/
theorem pollLoop_no_submit (getTx : Nat → GetTxOutcome) (hash : String) :
    ∀ r a, ∀ e ∈ (pollLoop getTx hash r a).2, isSubmitEvent e = false := by
  intro r
  induction r with
  | zero => intro a e he; simp [pollLoop] at he
  | succ n ih =>
    intro a e he
    cases hga : getTx a with
    | result st rx =>
      rw [pollLoop, hga] at he
      by_cases hs : st = "SUCCESS"
      · simp [hs, pollStepEvents] at he
        rcases he with h | h <;> simp [h, isSubmitEvent]
      · by_cases hf : st = "FAILED" <;>
          · simp [hs, hf, pollStepEvents] at he
            rcases he with h | h | h
            · simp [h, isSubmitEvent]
            · simp [h, isSubmitEvent]
            · exact ih (a + 1) e h
    | threw m =>
      rw [pollLoop, hga] at he
      simp [pollStepEvents] at he
      rcases he with h | h | h
      · simp [h, isSubmitEvent]
      · simp [h, isSubmitEvent]
      · exact ih (a + 1) e h

/-- The poll loop performs no submission events (count form). -/
theorem pollLoop_countP_submit (getTx : Nat → GetTxOutcome) (hash : String)
    (r a : Nat) : ((pollLoop getTx hash r a).2).countP isSubmitEvent = 0 := by
  rw [List.countP_eq_zero]
  intro e he
  simp [pollLoop_no_submit getTx hash r a e he]

/-- The trace of `k` exhausted poll iterations holds exactly `k` status
queries. -/
theorem pollTrace_countP_getTx (k : Nat) :
    (pollTrace k).countP isGetTxEvent = k := by
  induction k with
  | zero => rfl
  | succ n ih => simp [pollTrace, pollStepEvents, List.countP_cons, isGetTxEvent, ih]

/-! ## Claim theorems: submitter / confirmation poller -/

/-- C2: evaluation at the failing input.  With the submission accepted as
PENDING and every status query answering FAILED (with a result XDR), the
poller does NOT terminate on the first FAILED answer with an error embedding
the result detail: the `throw` in the FAILED branch is caught by the loop's
own `catch`, so all 30 attempts are consumed and the call ends with the
timeout error — the FAILED detail is lost and the outcome is reported as a
timeout. -/
theorem submit_failed_status_polls_to_timeout :
    submitSignedTransaction txSorobanOps oracleAllFailed
      = (.error ("Transaction submission failed: " ++ confirmationTimeoutMsg),
         .sorobanSend :: pollTrace 30)
    ∧ (pollTrace 30).countP isGetTxEvent = 30 := ⟨rfl, rfl⟩

/-- C3 counterexample: a status query that fails with a non-transient
application error is not raised to the caller on the first attempt with zero
retries consumed — the loop retries it 30 times (each attempt preceded by a
fixed 2-second sleep, no exponential backoff) and then raises the timeout
error instead of the original error. -/
theorem poll_error_retried_not_raised :
    (submitSignedTransaction txSorobanOps oracleAllThrew).2.countP isGetTxEvent = 30
    ∧ (submitSignedTransaction txSorobanOps oracleAllThrew).1
        = .error ("Transaction submission failed: " ++ confirmationTimeoutMsg)
    ∧ (submitSignedTransaction txSorobanOps oracleAllThrew).2
        = .sorobanSend :: pollTrace 30 := ⟨rfl, rfl, rfl⟩

/-- C3 amended: there is no retrying network caller.  The confirmation poll
loop is the only retry mechanism: it retries every status-query failure —
whatever the error — at a fixed 2-second interval until the 30-attempt
budget is exhausted, then raises the timeout error; and a read-only contract
call performs its account load and its simulation at most once each. -/
theorem no_retry_wrapper_poll_retries_all_errors :
    (∀ m hash er,
      submitSignedTransaction txSorobanOps
        { send := .ok { status := "PENDING", hash := hash, errorResult := er },
          horizon := .ok hash, getTx := fun _ => .threw m }
        = (.error ("Transaction submission failed: " ++ confirmationTimeoutMsg),
           .sorobanSend :: pollTrace 30))
    ∧ (∀ cfg net fn args,
        ((simulateContractCall cfg net fn args).2).countP isSimulateEvent ≤ 1
        ∧ ((simulateContractCall cfg net fn args).2).countP isLoadAccountEvent ≤ 1) := by
  constructor
  · intro m hash er
    have hp := pollLoop_no_success_timeout (fun _ => GetTxOutcome.threw m) hash
      (fun i => trivial) 30 0
    simp [submitSignedTransaction, hasSorobanOps, txSorobanOps, maxAttempts, hp]
  · intro cfg net fn args
    unfold simulateContractCall
    by_cases h1 : cfg.hasAdminKeypair
    · by_cases h2 : cfg.contractAddress = ""
      · simp [h1, h2, List.countP, List.countP.go, isSimulateEvent, isLoadAccountEvent]
      · cases hla : net.loadAccount with
        | ok =>
          cases hsim : net.simulate with
          | error m =>
            simp [h1, h2, hla, hsim, List.countP, List.countP.go,
              isSimulateEvent, isLoadAccountEvent]
          | ok resp =>
            by_cases h3 : resp.isError <;> by_cases h4 : resp.isSuccess <;>
              cases hr : resp.retval <;>
                simp [h1, h2, hla, hsim, h3, h4, hr, List.countP, List.countP.go,
                  isSimulateEvent, isLoadAccountEvent]
        | notFound =>
          simp [h1, h2, hla, List.countP, List.countP.go,
            isSimulateEvent, isLoadAccountEvent]
        | threw m =>
          simp [h1, h2, hla, List.countP, List.countP.go,
            isSimulateEvent, isLoadAccountEvent]
    · simp [h1, List.countP, List.countP.go, isSimulateEvent, isLoadAccountEvent]

/-- C4: for every resource-metered envelope whose submission is accepted as
PENDING and whose status endpoint answers PENDING on every query, the poller
performs exactly the 30-attempt budget of status queries — each preceded by
its fixed 2-second sleep — and then raises the timeout error (the error
carries the timeout message, not the FAILED-status submission-failure
message). -/
theorem submit_always_pending_times_out (ops : List String) (net : SubmitOracle)
    (hash : String) (er : Option String)
    (hops : hasSorobanOps ops = true)
    (hsend : net.send = .ok { status := "PENDING", hash := hash, errorResult := er })
    (hget : ∀ i, net.getTx i = .result "PENDING" none) :
    submitSignedTransaction ops net
      = (.error ("Transaction submission failed: " ++ confirmationTimeoutMsg),
         .sorobanSend :: pollTrace 30)
    ∧ (pollTrace 30).countP isGetTxEvent = 30 := by
  refine ⟨?_, pollTrace_countP_getTx 30⟩
  have hp := pollLoop_no_success_timeout net.getTx hash
    (fun i => by rw [hget i]; decide) 30 0
  simp [submitSignedTransaction, hops, hsend, maxAttempts, hp]

/-- C4 witness: the theorem applied to the concrete all-PENDING oracle. -/
theorem submit_always_pending_times_out_witness :
    submitSignedTransaction txSorobanOps oracleAllPending
      = (.error ("Transaction submission failed: " ++ confirmationTimeoutMsg),
         .sorobanSend :: pollTrace 30)
    ∧ (pollTrace 30).countP isGetTxEvent = 30 :=
  submit_always_pending_times_out txSorobanOps oracleAllPending "txhash" none
    rfl rfl (fun _ => rfl)

/-- C5: one call to `submitSignedTransaction` submits the envelope exactly
once — the trace holds exactly one submission event, and it is the first
event; everything after it is sleeps and status queries, so exhausting the
polling budget never resubmits. -/
theorem submit_envelope_submitted_once (ops : List String) (net : SubmitOracle) :
    ((submitSignedTransaction ops net).2).countP isSubmitEvent = 1
    ∧ ((submitSignedTransaction ops net).2).tail.countP isSubmitEvent = 0 := by
  unfold submitSignedTransaction
  by_cases h : hasSorobanOps ops <;> simp [h]
  · cases net.send with
    | error m => simp [List.countP, List.countP.go, isSubmitEvent]
    | ok res =>
      by_cases hst : res.status = "PENDING" <;> simp [hst]
      · rcases hpl : pollLoop net.getTx res.hash maxAttempts 0 with ⟨r, evs⟩
        have hns : ∀ e ∈ evs, isSubmitEvent e = false := by
          intro e he
          have h0 := pollLoop_no_submit net.getTx res.hash maxAttempts 0 e
          rw [hpl] at h0
          exact h0 he
        have hcnt : evs.countP isSubmitEvent = 0 :=
          List.countP_eq_zero.mpr (by intro e he; simp [hns e he])
        cases r <;>
          exact ⟨by simp [List.countP_cons, isSubmitEvent, hcnt],
            fun a ha => hns a ha⟩
      · simp [List.countP, List.countP.go, isSubmitEvent]
  · cases net.horizon with
    | ok hsh => simp [List.countP, List.countP.go, isSubmitEvent]
    | error m => simp [List.countP, List.countP.go, isSubmitEvent]

/-- C6: an envelope is routed to the Soroban RPC `sendTransaction` exactly
when one of its operations is an invoke-host-function operation, and to the
Horizon submission endpoint exactly otherwise; a simple envelope's trace is
the single synchronous Horizon submission, with no status query. -/
theorem submit_classification (ops : List String) (net : SubmitOracle) :
    (NetEvent.sorobanSend ∈ (submitSignedTransaction ops net).2
      ↔ hasSorobanOps ops = true)
    ∧ (NetEvent.horizonSubmit ∈ (submitSignedTransaction ops net).2
      ↔ hasSorobanOps ops = false)
    ∧ (hasSorobanOps ops = false →
        (submitSignedTransaction ops net).2 = [NetEvent.horizonSubmit]) := by
  unfold submitSignedTransaction
  by_cases h : hasSorobanOps ops <;> simp [h]
  · cases net.send with
    | error m => simp
    | ok res =>
      by_cases hst : res.status = "PENDING" <;> simp [hst]
      rcases hpl : pollLoop net.getTx res.hash maxAttempts 0 with ⟨r, evs⟩
      have hns : ∀ e ∈ evs, isSubmitEvent e = false := by
        intro e he
        have h0 := pollLoop_no_submit net.getTx res.hash maxAttempts 0 e
        rw [hpl] at h0
        exact h0 he
      have hhn : NetEvent.horizonSubmit ∉ evs := by
        intro hmem
        have h1 := hns _ hmem
        simp [isSubmitEvent] at h1
      cases r <;> simp [hhn]
  · cases net.horizon with
    | ok hsh => simp
    | error m => simp

/-- C6 witness: a payment envelope goes to Horizon synchronously. -/
theorem submit_classification_witness :
    (submitSignedTransaction txPaymentOps oracleAllPending).2
      = [NetEvent.horizonSubmit] :=
  (submit_classification txPaymentOps oracleAllPending).2.2 rfl

/-! ## Claim theorems: typed value decoder and assembler -/

/-- C1: evaluation at the failing input.  Decoding the 128-bit encoding with
hi=1, lo=0 yields the JS number `Number((1 << 64) + 0)` — not the decimal
string `"18446744073709551616"` the claim requires; with hi=1, lo=1 the
value 2^64+1 is lossily rounded to the same number 2^64.  (hi=0, lo=1000
does decode to 1000, and `serializeBigIntForJson` likewise rounds an
oversized BigInt to a number.)  The guard in the source is `Number.isFinite`
rather than a safe-integer check, despite its own comment
"convert to Number when safe". -/
theorem scvU128_decoder_returns_number_not_string :
    customScValToNative sdkStubOk 1 (u128ScVal "1" "0")
      = .ok (.num 18446744073709551616)
    ∧ customScValToNative sdkStubOk 1 (u128ScVal "1" "1")
      = .ok (.num 18446744073709551616)
    ∧ customScValToNative sdkStubOk 1 (u128ScVal "0" "1000") = .ok (.num 1000)
    ∧ customScValToNative sdkStubOk 1 (u128ScVal "1" "0")
      ≠ .ok (.str "18446744073709551616")
    ∧ serializeBigIntForJson 1 (.bigint 18446744073709551617)
      = .num 18446744073709551616 := by
  refine ⟨rfl, rfl, rfl, ?_, rfl⟩
  have h1 : customScValToNative sdkStubOk 1 (u128ScVal "1" "0")
      = Except.ok (JsVal.num 18446744073709551616) := rfl
  rw [h1]
  exact fun h => JsVal.noConfusion (Except.ok.inj h)

/-- C7 counterexample: an untagged string handed to the read-only
contract-call path is encoded by the `typeof arg === 'string'` branch of
`simulateContractCall` — the encoding (a symbol) is inferred from the
argument's runtime shape, with no call-site type tag. -/
theorem convertArg_infers_symbol_from_runtime_string :
    convertArg (.str "register") = nativeToScValSymbol "register"
    ∧ convertArg (.str "register") ≠ .str "register"
    ∧ (simulateContractCall cfgOk netSimOk "get_winners" [.str "register"]).2
        = [.loadAccountCall, .simulateCall [nativeToScValSymbol "register"]] := by
  refine ⟨rfl, ?_, rfl⟩
  have h1 : convertArg (.str "register") = nativeToScValSymbol "register" := rfl
  rw [h1, nativeToScValSymbol]
  exact fun h => JsVal.noConfusion h

/-- C7 amended: every argument at the actual call sites (the `register`
builder, and the quest queries that reuse the same pair) is an explicitly
tagged Typed Value — a u64-tagged quest id and an address conversion — and
such tagged values pass through the read-only path's converter unchanged;
but the converter itself falls back to runtime typeof-based inference for
untagged arguments, encoding raw strings as symbols. -/
theorem call_site_args_tagged_converter_identity :
    (∀ questId userAddress, (registerCallArgs questId userAddress).map convertArg
        = registerCallArgs questId userAddress)
    ∧ (∀ s, convertArg (.str s) = nativeToScValSymbol s)
    ∧ (∀ v, (v.truthy && v.isObjectLike && v.hasProp "_switch") = true →
        convertArg v = v) := by
  refine ⟨?_, ?_, ?_⟩
  · intro qid addr
    simp [registerCallArgs, convertArg, nativeToScValU64, addressToScVal,
      JsVal.truthy, JsVal.isObjectLike, JsVal.hasProp]
  · intro s
    simp [convertArg, JsVal.isObjectLike]
  · intro v hv
    simp [convertArg, hv]

/-- C7 amended, witness: the `register` call-site arguments pass through the
converter unchanged, a raw string is symbol-encoded, and a tagged u64 is
left alone. -/
theorem call_site_args_tagged_converter_identity_witness :
    (registerCallArgs 1 "GUSER").map convertArg = registerCallArgs 1 "GUSER"
    ∧ convertArg (.str "get_winners") = nativeToScValSymbol "get_winners"
    ∧ convertArg (nativeToScValU64 7) = nativeToScValU64 7 :=
  ⟨call_site_args_tagged_converter_identity.1 1 "GUSER",
   call_site_args_tagged_converter_identity.2.1 "get_winners",
   call_site_args_tagged_converter_identity.2.2 (nativeToScValU64 7) (by rfl)⟩

/-- C8: the assembled envelope's fee is at least the simulation's minimum
resource fee, and the resource metadata is attached; assembly is a pure
function of the envelope and the footprint (no oracle argument — it
performs no network access and is deterministic). -/
theorem assembleTransaction_fee_at_least_min (env : OperationEnvelope)
    (f : ResourceFootprint) :
    f.minResourceFee ≤ (assembleTransaction env f).fee
    ∧ (assembleTransaction env f).resourceMeta = some f :=
  ⟨le_max_right _ _, rfl⟩

/-! ## Decoder lemmas for single ScVal cases -/

/-- Decoding a symbol ScVal yields its payload string. -/
theorem customScValToNative_symbol (sdk : JsVal → Except String JsVal)
    (fuel : Nat) (s : String) :
    customScValToNative sdk (fuel + 1) (nativeToScValSymbol s) = .ok (.str s) := by
  simp [customScValToNative, nativeToScValSymbol, JsVal.get, JsVal.isObjectLike,
    JsVal.truthy]

/-- Decoding a u32 ScVal yields its number (the falsy-zero shortcut
`scVal._value || 0` returns `0` for a zero value, which is the same
number). -/
theorem customScValToNative_u32 (sdk : JsVal → Except String JsVal)
    (fuel : Nat) (n : Nat) :
    customScValToNative sdk (fuel + 1) (scvU32Val n) = .ok (.num n) := by
  by_cases hn : n = 0 <;>
    simp [customScValToNative, scvU32Val, JsVal.get, JsVal.isObjectLike,
      JsVal.truthy, hn]

/-- When the SDK address formatter throws on an address value with a truthy
payload, the decoder returns the sentinel error-string instead of
rethrowing. -/
theorem customScValToNative_address_error (sdk : JsVal → Except String JsVal)
    (fuel : Nat) (av : JsVal) (e : String)
    (hsdk : sdk (scvAddressVal av) = .error e) (hav : av.truthy = true) :
    customScValToNative sdk (fuel + 1) (scvAddressVal av)
      = .ok (.str "ADDRESS_CONVERSION_ERROR") := by
  simp only [scvAddressVal] at hsdk
  cases av <;>
    simp_all [customScValToNative, scvAddressVal, JsVal.get, JsVal.isObjectLike,
      JsVal.truthy]

/-- One unfolding of the decoder on a map value: fold the entries, decoding
key and value of each well-formed entry and assigning into the result
object. -/
theorem customScValToNative_map (sdk : JsVal → Except String JsVal) (fuel : Nat)
    (entries : List JsVal) :
    customScValToNative sdk (fuel + 1) (scvMapVal entries)
      = match entries.foldlM
          (fun (acc : List (String × JsVal)) (item : JsVal) =>
            let k := (item.get "_attributes").get "key"
            let v := (item.get "_attributes").get "val"
            if k.truthy && v.truthy then
              match customScValToNative sdk fuel k,
                  customScValToNative sdk fuel v with
              | .ok dk, .ok dv =>
                Except.ok (jsSetProp acc (jsToStr fuel dk) dv)
              | .error e, _ => .error e
              | _, .error e => .error e
            else .ok acc) [] with
        | .ok fs => .ok (.obj fs)
        | .error e => .error e := rfl

/-- C9: for every SDK formatter, every pair of distinct keys, every u32
sibling value and every malformed address value (truthy payload, formatter
throws), the decoder does not raise on the containing map: it returns the
whole decoded map, with the malformed address replaced by the sentinel
`ADDRESS_CONVERSION_ERROR` and the sibling entry decoded normally. -/
theorem decode_map_malformed_address_sentinel (sdk : JsVal → Except String JsVal)
    (fuel : Nat) (k1 k2 : String) (n : Nat) (av : JsVal) (e : String)
    (hsdk : sdk (scvAddressVal av) = .error e)
    (hav : av.truthy = true)
    (hk : k1 ≠ k2) :
    customScValToNative sdk (fuel + 2)
      (scvMapVal [scvMapEntry (nativeToScValSymbol k1) (scvU32Val n),
                  scvMapEntry (nativeToScValSymbol k2) (scvAddressVal av)])
      = .ok (.obj [(k1, .num n), (k2, .str "ADDRESS_CONVERSION_ERROR")]) := by
  have hkey1 := customScValToNative_symbol sdk fuel k1
  have hkey2 := customScValToNative_symbol sdk fuel k2
  have hval1 := customScValToNative_u32 sdk fuel n
  have hval2 := customScValToNative_address_error sdk fuel av e hsdk hav
  have ht1 : (nativeToScValSymbol k1).truthy = true := rfl
  have ht2 : (nativeToScValSymbol k2).truthy = true := rfl
  have ht3 : (scvU32Val n).truthy = true := rfl
  have ht4 : (scvAddressVal av).truthy = true := rfl
  rw [show fuel + 2 = (fuel + 1) + 1 from rfl, customScValToNative_map]
  simp [scvMapEntry, JsVal.get, List.foldlM, ht1, ht2, ht3, ht4,
    hkey1, hkey2, hval1, hval2, jsToStr, jsSetProp, hk, bind, Except.bind,
    pure, Except.pure]

/-- C9 witness: a concrete two-entry map whose `admin` entry holds a
malformed address decodes to the sentinel alongside its sibling. -/
theorem decode_map_malformed_address_sentinel_witness :
    customScValToNative sdkAddrFail 5
      (scvMapVal [scvMapEntry (nativeToScValSymbol "title") (scvU32Val 7),
                  scvMapEntry (nativeToScValSymbol "admin")
                    (scvAddressVal (.str "bad-address"))])
      = .ok (.obj [("title", .num 7),
                   ("admin", .str "ADDRESS_CONVERSION_ERROR")]) :=
  decode_map_malformed_address_sentinel sdkAddrFail 3 "title" "admin" 7
    (.str "bad-address") "Error: invalid address" rfl rfl (by decide)

/-- Serializing an empty decoded array leaves it empty, at any fuel. -/
theorem serializeBigIntForJson_arr_nil (fuel : Nat) :
    serializeBigIntForJson fuel (.arr []) = .arr [] := by
  cases fuel <;> simp [serializeBigIntForJson]

/-- C10: `getActiveQuests` never raises — it always returns `Except.ok` —
and on every failure of the underlying contract call (configuration error,
missing admin account, simulation error, or decoding failure) it returns
the empty list, the same value produced by a successful call whose contract
reports no active quests. -/
theorem getActiveQuests_never_throws (cfg : SvcConfig) (net : SimOracle)
    (sdk : JsVal → Except String JsVal) (fuel : Nat) :
    (∃ l, getActiveQuests cfg net sdk fuel = .ok l)
    ∧ (∀ e, (simulateContractCall cfg net "get_active_quests" []).1 = .error e →
        getActiveQuests cfg net sdk fuel = .ok [])
    ∧ (∀ rv e, (simulateContractCall cfg net "get_active_quests" []).1 = .ok rv →
        convertScValToNativeWithBigIntHandling sdk fuel rv = .error e →
        getActiveQuests cfg net sdk fuel = .ok [])
    ∧ (∀ rv, (simulateContractCall cfg net "get_active_quests" []).1 = .ok rv →
        convertScValToNativeWithBigIntHandling sdk fuel rv = .ok (.arr []) →
        getActiveQuests cfg net sdk fuel = .ok []) := by
  refine ⟨?_, ?_, ?_, ?_⟩
  · cases hs : (simulateContractCall cfg net "get_active_quests" []).1 with
    | error e =>
      exact ⟨[], by simp [getActiveQuests, hs, bind, Except.bind]⟩
    | ok rv =>
      cases hc : convertScValToNativeWithBigIntHandling sdk fuel rv with
      | error e2 =>
        exact ⟨[], by simp [getActiveQuests, hs, hc, bind, Except.bind]⟩
      | ok q =>
        refine ⟨(match serializeBigIntForJson fuel q with
          | .arr xs => xs
          | _ => []), ?_⟩
        simp [getActiveQuests, hs, hc, bind, Except.bind, pure, Except.pure]
  · intro e hs
    simp [getActiveQuests, hs, bind, Except.bind]
  · intro rv e hs hc
    simp [getActiveQuests, hs, hc, bind, Except.bind]
  · intro rv hs hc
    simp [getActiveQuests, hs, hc, bind, Except.bind, pure, Except.pure,
      serializeBigIntForJson_arr_nil]

/-- C10 witness: with no admin keypair configured the contract call fails,
and the method still returns the empty list rather than raising. -/
theorem getActiveQuests_never_throws_witness :
    getActiveQuests cfgNoAdmin netSimDown sdkStubOk 3 = .ok [] :=
  (getActiveQuests_never_throws cfgNoAdmin netSimDown sdkStubOk 3).2.1
    "ADMIN_SECRET not configured in environment variables. Please set a valid Stellar secret key (starts with S)"
    rfl
